import Mathlib

/-!
Shallow embedding of the SPLINTER RBF network core (src/rbfnetwork.cpp)
and of the dense-matrix part of the state serializer (src/serializer.cpp).

Modelling conventions:
- Machine doubles are modelled as exact rationals; the claims under study
  are algebraic and control-flow properties of the code, not rounding
  properties, so the idealized field is the right carrier.
- The function std::sqrt is supplied by the C math library, which is not
  part of this repository, so the whole development is parametric in an
  arbitrary function sqrt : ℚ → ℚ.  Every theorem below is proved for
  every such function, hence in particular for the true square root.
- Thrown C++ exceptions are modelled with Except: the Exception objects
  thrown by RBFNetwork carry a message string, and the spec classifies
  both the explicit dimension checks and the length check inside
  RBFNetwork::dist as DimensionMismatch errors.
- In the serializer, a double is represented by its 64-bit object
  representation (the bit pattern copied byte by byte), since the claim
  under study is about bitwise equality of the encoded bytes.
-/

namespace SPLINTER

/-- Errors thrown by the modelled code.  The spec (section 7) groups the
message thrown by RBFNetwork::eval / evalBasis and the one thrown by
RBFNetwork::dist under the single kind DimensionMismatch; vector::at can
in principle throw out_of_range, which is kept as a separate kind. -/
inductive SplinterError where
  | dimensionMismatch (msg : String)
  | outOfRange (msg : String)
deriving DecidableEq

/-- True when the computation completed without throwing. -/
def isOk {α : Type} : Except SplinterError α → Bool
  | .ok _ => true
  | .error _ => false

/-- True when the computation threw a DimensionMismatch error. -/
def isDimensionMismatch {α : Type} : Except SplinterError α → Bool
  | .error (.dimensionMismatch _) => true
  | _ => false

/-- A sample: input vector x and scalar output y (data_point.h). -/
structure DataPoint where
  x : List ℚ
  y : ℚ
deriving DecidableEq

/-- A radial basis function: the kernel and its derivative with respect
to the distance.  The concrete kernel bodies live in rbf.h, outside the
two source files, so they stay abstract; no claim depends on them. -/
structure RBF where
  eval : ℚ → ℚ
  evalDerivative : ℚ → ℚ

/-- The trained RBF network: sample table, dimensionality, normalization
flag, chosen kernel and solved weight vector (member `coefficients`). -/
structure RBFNetwork where
  samples : List DataPoint
  numVariables : ℕ
  normalized : Bool
  fn : RBF
  coefficients : List ℚ

/-- Invariants of a trained model, from the spec data model: every sample
has dimension numVariables, and len(coefficients) == numSamples. -/
def RBFNetwork.WellFormed (m : RBFNetwork) : Prop :=
  (∀ p ∈ m.samples, p.x.length = m.numVariables) ∧
  m.coefficients.length = m.samples.length

variable (sqrt : ℚ → ℚ)

/-- The accumulation loop of RBFNetwork::dist: sum of squared
coordinate differences (the loop runs after the length guard, so both
lists have the same length at every call site that does not throw). -/
def sumSqDiff : List ℚ → List ℚ → ℚ
  | a :: xs, b :: ys => (a - b) * (a - b) + sumSqDiff xs ys
  | _, _ => 0

/-- Euclidean distance of two equal-length vectors, sqrt of the sum of
squared differences. -/
def distF (x y : List ℚ) : ℚ :=
  sqrt (sumSqDiff x y)

/-- RBFNetwork::dist — throws when the two vectors have different
lengths, otherwise returns the Euclidean distance. -/
def dist (x y : List ℚ) : Except SplinterError ℚ :=
  if x.length ≠ y.length then
    .error (.dimensionMismatch
      "RBFNetwork::dist: Cannot measure distance between two points of different dimension")
  else
    .ok (distF sqrt x y)

/-- vector::at — bounds-checked element access. -/
def listAt (l : List ℚ) (i : ℕ) : Except SplinterError ℚ :=
  if h : i < l.length then .ok (l.get ⟨i, h⟩)
  else .error (.outOfRange "vector::at: out of range")

/-- The sample loop of RBFNetwork::eval: accumulates sum and sumw over
the samples, pairing sample i with coefficients(i) (the pairing is total
because a trained model has exactly one coefficient per sample). -/
def evalLoop (fn : RBF) (xv : List ℚ) :
    List (DataPoint × ℚ) → ℚ → ℚ → Except SplinterError (ℚ × ℚ)
  | [], sum, sumw => .ok (sum, sumw)
  | (p, c) :: rest, sum, sumw =>
    match dist sqrt xv p.x with
    | .error e => .error e
    | .ok r =>
      let fval := fn.eval r
      evalLoop fn xv rest (sum + fval) (sumw + c * fval)

/-- RBFNetwork::eval — dimension check, the sample loop, then
`normalized ? sumw/sum : sumw`. -/
def RBFNetwork.eval (m : RBFNetwork) (x : List ℚ) : Except SplinterError ℚ :=
  if x.length ≠ m.numVariables then
    .error (.dimensionMismatch "RBFNetwork::eval: Wrong dimension on evaluation point x.")
  else
    match evalLoop sqrt m.fn x (m.samples.zip m.coefficients) 0 0 with
    | .error e => .error e
    | .ok (sum, sumw) => .ok (if m.normalized then sumw / sum else sumw)

/-- The sample loop of RBFNetwork::evalBasis: the raw kernel values. -/
def basisLoop (fn : RBF) (xv : List ℚ) : List DataPoint → Except SplinterError (List ℚ)
  | [] => .ok []
  | p :: rest =>
    match dist sqrt xv p.x with
    | .error e => .error e
    | .ok r =>
      match basisLoop fn xv rest with
      | .error e => .error e
      | .ok bs => .ok (fn.eval r :: bs)

/-- RBFNetwork::evalBasis — dimension check, raw kernel values, divided
elementwise by their sum when the model is normalized. -/
def RBFNetwork.evalBasis (m : RBFNetwork) (x : List ℚ) : Except SplinterError (List ℚ) :=
  if x.length ≠ m.numVariables then
    .error (.dimensionMismatch "RBFNetwork::evalBasis: Wrong dimension on evaluation point x.")
  else
    match basisLoop sqrt m.fn x m.samples with
    | .error e => .error e
    | .ok basis => .ok (if m.normalized then basis.map (fun v => v / basis.sum) else basis)

/-- The inner sample loop of RBFNetwork::evalJacobian for one input
dimension i: accumulates (sum, sumw, sum_d, sumw_d).  The directional
terms are added only when r is nonzero, exactly as in the source. -/
def jacLoop (fn : RBF) (xv : List ℚ) (i : ℕ) :
    List (DataPoint × ℚ) → ℚ → ℚ → ℚ → ℚ → Except SplinterError (ℚ × ℚ × ℚ × ℚ)
  | [], sum, sumw, sum_d, sumw_d => .ok (sum, sumw, sum_d, sumw_d)
  | (p, c) :: rest, sum, sumw, sum_d, sumw_d =>
    match dist sqrt xv p.x with
    | .error e => .error e
    | .ok r =>
      match listAt xv i, listAt p.x i with
      | .ok xi, .ok si =>
        let ri := xi - si
        let f := fn.eval r
        let dfdr := fn.evalDerivative r
        if r ≠ 0 then
          jacLoop fn xv i rest (sum + f) (sumw + c * f)
            (sum_d + dfdr * ri / r) (sumw_d + c * dfdr * ri / r)
        else
          jacLoop fn xv i rest (sum + f) (sumw + c * f) sum_d sumw_d
      | .error e, _ => .error e
      | .ok _, .error e => .error e

/-- The outer loop of RBFNetwork::evalJacobian over the input dimensions,
producing one Jacobian entry per dimension.  Note that the source
performs no dimension check on x here: a mismatch only surfaces as the
exception thrown by RBFNetwork::dist inside the inner loop. -/
def jacColumns (fn : RBF) (xv : List ℚ) (pcs : List (DataPoint × ℚ)) (normalized : Bool) :
    List ℕ → Except SplinterError (List ℚ)
  | [] => .ok []
  | i :: rest =>
    match jacLoop sqrt fn xv i pcs 0 0 0 0 with
    | .error e => .error e
    | .ok (sum, sumw, sum_d, sumw_d) =>
      match jacColumns fn xv pcs normalized rest with
      | .error e => .error e
      | .ok tail =>
        .ok ((if normalized then (sum * sumw_d - sum_d * sumw) / (sum * sum) else sumw_d) :: tail)

/-- RBFNetwork::evalJacobian — a 1 × numVariables row of partial
derivatives (kept as a flat list of length numVariables). -/
def RBFNetwork.evalJacobian (m : RBFNetwork) (x : List ℚ) : Except SplinterError (List ℚ) :=
  jacColumns sqrt m.fn x (m.samples.zip m.coefficients) m.normalized (List.range m.numVariables)

/-- Dot product of two vectors (used to state the relation between
evalBasis and eval; truncates at the shorter list like the zip of a
sample table with its coefficient vector). -/
def dot (u v : List ℚ) : ℚ :=
  ((u.zip v).map (fun p => p.1 * p.2)).sum

/-- The inner loop of the training constructor for one row i: for each
sample j compute val = fn.eval(dist(x_i, x_j)); the entry is written and
the row sum increased only when val is nonzero (A was zero-initialized
by setZero, so a skipped entry stays 0). -/
def rowLoop (fn : RBF) (p : DataPoint) : List DataPoint → Except SplinterError (List ℚ × ℚ)
  | [] => .ok ([], 0)
  | q :: rest =>
    match dist sqrt p.x q.x with
    | .error e => .error e
    | .ok r =>
      let val := fn.eval r
      match rowLoop fn p rest with
      | .error e => .error e
      | .ok (row, sum) =>
        if val ≠ 0 then .ok (val :: row, sum + val)
        else .ok ((0 : ℚ) :: row, sum)

/-- The outer loop of the training constructor: assembles the matrix A
row by row and the right-hand side b with bᵢ = normalized ? sumᵢ·yᵢ : yᵢ. -/
def systemLoop (fn : RBF) (normalized : Bool) (samples : List DataPoint) :
    List DataPoint → Except SplinterError (List (List ℚ) × List ℚ)
  | [] => .ok ([], [])
  | p :: rest =>
    match rowLoop sqrt fn p samples with
    | .error e => .error e
    | .ok (row, sum) =>
      match systemLoop fn normalized samples rest with
      | .error e => .error e
      | .ok (A, b) => .ok (row :: A, (if normalized then sum * p.y else p.y) :: b)

/-- RBFNetwork::computePreconditionMatrix — the unimplemented stub that
returns the numSamples × numSamples zero matrix. -/
def computePreconditionMatrix (numSamples : ℕ) : List (List ℚ) :=
  List.replicate numSamples (List.replicate numSamples (0 : ℚ))

/-- Matrix-vector product (only reachable from the dead precondition
branch of the constructor). -/
def matVec (P : List (List ℚ)) (b : List ℚ) : List ℚ :=
  P.map (fun row => dot row b)

/-- Matrix-matrix product (only reachable from the dead precondition
branch of the constructor). -/
def matMul (P A : List (List ℚ)) : List (List ℚ) :=
  P.map (fun row => A.transpose.map (fun col => dot row col))

/-- The observable outcome of the training constructor: the assembled
system (A, b), the solved weight vector, and the reciprocal condition
number diagnostic (printed, never acted upon, by the source). -/
structure TrainingResult where
  A : List (List ℚ)
  b : List ℚ
  coefficients : List ℚ
  rcondnum : ℚ
deriving DecidableEq

/-- The training part of RBFNetwork::RBFNetwork(samples, type, normalized).
The SVD comes from Eigen (an external library), so it is abstracted into
two function parameters: svdSingularValues returns the singular values of
A in decreasing order (svals(0) is the largest, the last entry the
smallest — totalized here with default 0 for an empty list), and
svdSolve returns the least-squares solution of A w = b.  The member
precondition is initialized to false in the constructor and never set,
so the preconditioning branch is dead code; it is still modelled. -/
def RBFNetwork.construct (fn : RBF) (samples : List DataPoint) (normalized : Bool)
    (svdSingularValues : List (List ℚ) → List ℚ)
    (svdSolve : List (List ℚ) → List ℚ → List ℚ) :
    Except SplinterError TrainingResult :=
  match systemLoop sqrt fn normalized samples samples with
  | .error e => .error e
  | .ok (A0, b0) =>
    let precondition := false
    let A := if precondition then matMul (computePreconditionMatrix samples.length) A0 else A0
    let b := if precondition then matVec (computePreconditionMatrix samples.length) b0 else b0
    let svals := svdSingularValues A
    let svalmax := svals.headD 0
    let svalmin := (svals.getLast?).getD 0
    let rcondnum := if svalmax ≤ 0 ∨ svalmin ≤ 0 then 0 else svalmin / svalmax
    .ok ⟨A, b, svdSolve A b, rcondnum⟩

/-- Modelled from the spec: the RBFType enum is declared in rbfnetwork.h,
which is not among the two source files; a C++ enum class is an integer
type whose named variants here get the default consecutive codes.  Only
distinctness of the five codes matters to any claim. -/
def THIN_PLATE_SPLINE : Int := 0

/-- Modelled from the spec: RBFType::MULTIQUADRIC. -/
def MULTIQUADRIC : Int := 1

/-- Modelled from the spec: RBFType::INVERSE_QUADRIC. -/
def INVERSE_QUADRIC : Int := 2

/-- Modelled from the spec: RBFType::INVERSE_MULTIQUADRIC. -/
def INVERSE_MULTIQUADRIC : Int := 3

/-- Modelled from the spec: RBFType::GAUSSIAN. -/
def GAUSSIAN : Int := 4

/-- The kernel-selection chain at the top of the training constructor,
in source order, with the final else branch falling back to
ThinPlateSpline.  The five kernel objects are parameters because their
bodies live in rbf.h, outside the two source files. -/
def selectRBF (gaussianRBF multiquadricRBF inverseQuadricRBF inverseMultiquadricRBF
    thinPlateSplineRBF : RBF) (t : Int) : RBF :=
  if t = THIN_PLATE_SPLINE then thinPlateSplineRBF
  else if t = MULTIQUADRIC then multiquadricRBF
  else if t = INVERSE_QUADRIC then inverseQuadricRBF
  else if t = INVERSE_MULTIQUADRIC then inverseMultiquadricRBF
  else if t = GAUSSIAN then gaussianRBF
  else thinPlateSplineRBF

/-- The full constructor taking the RBFType argument: kernel selection
followed by training. -/
def constructFromType (gaussianRBF multiquadricRBF inverseQuadricRBF inverseMultiquadricRBF
    thinPlateSplineRBF : RBF) (t : Int) (samples : List DataPoint) (normalized : Bool)
    (svdSingularValues : List (List ℚ) → List ℚ)
    (svdSolve : List (List ℚ) → List ℚ → List ℚ) :
    Except SplinterError TrainingResult :=
  RBFNetwork.construct sqrt
    (selectRBF gaussianRBF multiquadricRBF inverseQuadricRBF inverseMultiquadricRBF
      thinPlateSplineRBF t)
    samples normalized svdSingularValues svdSolve

/-- Width in bytes of the size fields written for matrix dimensions
(Eigen Index on write, size_t on read; both are 8 bytes on the 64-bit
platforms the library targets). -/
def bytesPerIndex : ℕ := 8

/-- Width in bytes of a double. -/
def bytesPerDouble : ℕ := 8

/-- Modelled from the spec: the primitive byte codec is a template in
serializer.h, which is not among the two source files; per spec section
4.4 the serializer writes the raw object representation of each
primitive into the byte stream.  A w-byte machine word holding value v
is written as its w bytes (least significant first); a double travels as
its 8-byte bit pattern, which is exactly what bitwise equality of the
decoded values is about. -/
def encodeWord : ℕ → ℕ → List ℕ
  | 0, _ => []
  | w + 1, v => v % 256 :: encodeWord w (v / 256)

/-- Modelled from the spec: the matching primitive byte decoder, reading
w bytes back into a machine word and returning the remaining stream;
fails on a truncated stream. -/
def decodeWord : ℕ → List ℕ → Option (ℕ × List ℕ)
  | 0, s => some (0, s)
  | _ + 1, [] => none
  | w + 1, byte :: s =>
    match decodeWord w s with
    | none => none
    | some (v, rest) => some (byte + 256 * v, rest)

/-- A dense matrix of doubles, each double represented by the 64-bit
pattern of its object representation, stored row-major. -/
structure DenseMatrix where
  rows : ℕ
  cols : ℕ
  entries : List ℕ
deriving DecidableEq

/-- Serializer::_serialize(DenseMatrix): the number of rows, the number
of columns, then the elements in row-major order. -/
def serializeDenseMatrix (m : DenseMatrix) : List ℕ :=
  encodeWord bytesPerIndex m.rows ++ encodeWord bytesPerIndex m.cols ++
    (m.entries.map (encodeWord bytesPerDouble)).flatten

/-- Serializer::get_size(DenseMatrix): two size fields plus, when the
matrix is nonempty, one double per element. -/
def get_size (m : DenseMatrix) : ℕ :=
  bytesPerIndex + bytesPerIndex +
    (if 0 < m.rows * m.cols then m.rows * m.cols * bytesPerDouble else 0)

/-- The element-reading loop of Serializer::deserialize(DenseMatrix). -/
def readWords : ℕ → List ℕ → Option (List ℕ × List ℕ)
  | 0, s => some ([], s)
  | n + 1, s =>
    match decodeWord bytesPerDouble s with
    | none => none
    | some (v, s1) =>
      match readWords n s1 with
      | none => none
      | some (vs, s2) => some (v :: vs, s2)

/-- Serializer::deserialize(DenseMatrix): read rows, read cols, resize,
then read rows·cols elements in row-major order. -/
def deserializeDenseMatrix (s : List ℕ) : Option (DenseMatrix × List ℕ) :=
  match decodeWord bytesPerIndex s with
  | none => none
  | some (rows, s1) =>
    match decodeWord bytesPerIndex s1 with
    | none => none
    | some (cols, s2) =>
      match readWords (rows * cols) s2 with
      | none => none
      | some (entries, s3) => some (⟨rows, cols, entries⟩, s3)

/-- A concrete kernel used by the witnesses (the theorems hold for every
kernel, so any instantiation will do). -/
def rbfW : RBF :=
  ⟨fun r => r + 1, fun _ => 1⟩

/-- A concrete unnormalized one-sample model for the witnesses. -/
def modelW : RBFNetwork :=
  ⟨[⟨[0], 1⟩], 1, false, rbfW, [2]⟩

/-- A concrete normalized one-sample model for the witnesses. -/
def modelN : RBFNetwork :=
  ⟨[⟨[0], 1⟩], 1, true, rbfW, [2]⟩

/-- A concrete two-sample one-dimensional table for the training
witnesses. -/
def tableW : List DataPoint :=
  [⟨[0], 1⟩, ⟨[1], 2⟩]

/-- A concrete 5 × 3 matrix of double bit patterns for the serializer
witness. -/
def matrixW : DenseMatrix :=
  ⟨5, 3, List.range 15⟩

/-- The Jacobian entry for input dimension i, phrased with explicit sums
over the sample table: the directional factor is ri / r, a sample at
distance zero contributes zero to the directional sums, and the
normalized case uses the quotient rule. -/
def jacEntryF (fn : RBF) (xv : List ℚ) (pcs : List (DataPoint × ℚ)) (normalized : Bool)
    (i : ℕ) : ℚ :=
  let sum := (pcs.map (fun pc => fn.eval (distF sqrt xv pc.1.x))).sum
  let sumw := (pcs.map (fun pc => pc.2 * fn.eval (distF sqrt xv pc.1.x))).sum
  let sum_d := (pcs.map (fun pc =>
    if distF sqrt xv pc.1.x = 0 then 0
    else fn.evalDerivative (distF sqrt xv pc.1.x) *
      (xv.getD i 0 - pc.1.x.getD i 0) / distF sqrt xv pc.1.x)).sum
  let sumw_d := (pcs.map (fun pc =>
    if distF sqrt xv pc.1.x = 0 then 0
    else pc.2 * fn.evalDerivative (distF sqrt xv pc.1.x) *
      (xv.getD i 0 - pc.1.x.getD i 0) / distF sqrt xv pc.1.x)).sum
  if normalized then (sum * sumw_d - sum_d * sumw) / (sum * sum) else sumw_d

theorem sumSqDiff_comm (x : List ℚ) : ∀ y : List ℚ, sumSqDiff x y = sumSqDiff y x := by
  induction x with
  | nil => intro y; cases y <;> simp [sumSqDiff]
  | cons a xs ih =>
    intro y
    cases y with
    | nil => simp [sumSqDiff]
    | cons b ys => simp only [sumSqDiff, ih]; ring

theorem dist_ok {x y : List ℚ} (h : x.length = y.length) :
    dist sqrt x y = .ok (distF sqrt x y) := by
  simp [dist, h]

theorem dist_err {x y : List ℚ} (h : x.length ≠ y.length) :
    dist sqrt x y = .error (.dimensionMismatch
      "RBFNetwork::dist: Cannot measure distance between two points of different dimension") := by
  simp [dist, h]

theorem evalLoop_ok (fn : RBF) (xv : List ℚ) :
    ∀ (l : List (DataPoint × ℚ)) (s w : ℚ),
      (∀ pc ∈ l, pc.1.x.length = xv.length) →
      evalLoop sqrt fn xv l s w =
        .ok (s + (l.map (fun pc => fn.eval (distF sqrt xv pc.1.x))).sum,
             w + (l.map (fun pc => pc.2 * fn.eval (distF sqrt xv pc.1.x))).sum) := by
  intro l
  induction l with
  | nil => intro s w _; simp [evalLoop]
  | cons pc rest ih =>
    intro s w hl
    obtain ⟨p, c⟩ := pc
    have hp : xv.length = p.x.length := (hl ⟨p, c⟩ (by simp)).symm
    rw [evalLoop, dist_ok sqrt hp]
    show evalLoop sqrt fn xv rest (s + fn.eval (distF sqrt xv p.x))
      (w + c * fn.eval (distF sqrt xv p.x)) = _
    rw [ih _ _ (fun a ha => hl a (List.mem_cons_of_mem _ ha))]
    simp only [List.map_cons, List.sum_cons, Except.ok.injEq, Prod.mk.injEq]
    constructor <;> ring

theorem basisLoop_ok (fn : RBF) (xv : List ℚ) :
    ∀ (l : List DataPoint), (∀ p ∈ l, p.x.length = xv.length) →
      basisLoop sqrt fn xv l = .ok (l.map (fun p => fn.eval (distF sqrt xv p.x))) := by
  intro l
  induction l with
  | nil => intro _; simp [basisLoop]
  | cons p rest ih =>
    intro hl
    have hp : xv.length = p.x.length := (hl p (by simp)).symm
    rw [basisLoop, dist_ok sqrt hp, ih (fun a ha => hl a (List.mem_cons_of_mem _ ha))]
    rfl

theorem jacLoop_ok (fn : RBF) (xv : List ℚ) (i : ℕ) (hi : i < xv.length) :
    ∀ (l : List (DataPoint × ℚ)) (s w sd swd : ℚ),
      (∀ pc ∈ l, pc.1.x.length = xv.length) →
      jacLoop sqrt fn xv i l s w sd swd =
        .ok (s + (l.map (fun pc => fn.eval (distF sqrt xv pc.1.x))).sum,
             w + (l.map (fun pc => pc.2 * fn.eval (distF sqrt xv pc.1.x))).sum,
             sd + (l.map (fun pc =>
               if distF sqrt xv pc.1.x = 0 then 0
               else fn.evalDerivative (distF sqrt xv pc.1.x) *
                 (xv.getD i 0 - pc.1.x.getD i 0) / distF sqrt xv pc.1.x)).sum,
             swd + (l.map (fun pc =>
               if distF sqrt xv pc.1.x = 0 then 0
               else pc.2 * fn.evalDerivative (distF sqrt xv pc.1.x) *
                 (xv.getD i 0 - pc.1.x.getD i 0) / distF sqrt xv pc.1.x)).sum) := by
  intro l
  induction l with
  | nil => intro s w sd swd _; simp [jacLoop]
  | cons pc rest ih =>
    intro s w sd swd hl
    obtain ⟨p, c⟩ := pc
    have hp : xv.length = p.x.length := (hl ⟨p, c⟩ (by simp)).symm
    have hip : i < p.x.length := hp ▸ hi
    rw [jacLoop, dist_ok sqrt hp]
    simp only [listAt, dif_pos hi, dif_pos hip]
    rw [List.get_eq_getElem, List.get_eq_getElem,
      ← List.getD_eq_getElem xv 0 hi, ← List.getD_eq_getElem p.x 0 hip]
    by_cases hr : distF sqrt xv p.x = 0
    · rw [if_neg (by simp [hr])]
      rw [ih _ _ _ _ (fun a ha => hl a (List.mem_cons_of_mem _ ha))]
      simp only [List.map_cons, List.sum_cons, if_pos hr, Except.ok.injEq, Prod.mk.injEq]
      refine ⟨by ring, by ring, by ring, by ring⟩
    · rw [if_pos hr]
      rw [ih _ _ _ _ (fun a ha => hl a (List.mem_cons_of_mem _ ha))]
      simp only [List.map_cons, List.sum_cons, if_neg hr, Except.ok.injEq, Prod.mk.injEq]
      refine ⟨by ring, by ring, by ring, by ring⟩

theorem jacColumns_ok (fn : RBF) (xv : List ℚ) (pcs : List (DataPoint × ℚ)) (normalized : Bool)
    (hl : ∀ pc ∈ pcs, pc.1.x.length = xv.length) :
    ∀ (idxs : List ℕ), (∀ i ∈ idxs, i < xv.length) →
      jacColumns sqrt fn xv pcs normalized idxs =
        .ok (idxs.map (jacEntryF sqrt fn xv pcs normalized)) := by
  intro idxs
  induction idxs with
  | nil => intro _; simp [jacColumns]
  | cons i rest ih =>
    intro hidx
    rw [jacColumns, jacLoop_ok sqrt fn xv i (hidx i (by simp)) pcs 0 0 0 0 hl,
      ih (fun a ha => hidx a (List.mem_cons_of_mem _ ha))]
    simp [jacEntryF]

theorem rowLoop_ok (fn : RBF) {d : ℕ} (p : DataPoint) (hp : p.x.length = d) :
    ∀ (l : List DataPoint), (∀ q ∈ l, q.x.length = d) →
      rowLoop sqrt fn p l =
        .ok (l.map (fun q => fn.eval (distF sqrt p.x q.x)),
             (l.map (fun q => fn.eval (distF sqrt p.x q.x))).sum) := by
  intro l
  induction l with
  | nil => intro _; simp [rowLoop]
  | cons q rest ih =>
    intro hl
    have hq : p.x.length = q.x.length := by rw [hp, hl q (by simp)]
    rw [rowLoop, dist_ok sqrt hq, ih (fun a ha => hl a (List.mem_cons_of_mem _ ha))]
    by_cases hv : fn.eval (distF sqrt p.x q.x) = 0
    · simp [hv]
    · simp only [if_pos hv, List.map_cons, List.sum_cons, Except.ok.injEq, Prod.mk.injEq,
        true_and]
      ring

theorem systemLoop_ok (fn : RBF) (normalized : Bool) (samples : List DataPoint) {d : ℕ}
    (hs : ∀ q ∈ samples, q.x.length = d) :
    ∀ (l : List DataPoint), (∀ p ∈ l, p.x.length = d) →
      systemLoop sqrt fn normalized samples l =
        .ok (l.map (fun p => samples.map (fun q => fn.eval (distF sqrt p.x q.x))),
             l.map (fun p =>
               if normalized then
                 (samples.map (fun q => fn.eval (distF sqrt p.x q.x))).sum * p.y
               else p.y)) := by
  intro l
  induction l with
  | nil => intro _; simp [systemLoop]
  | cons p rest ih =>
    intro hl
    rw [systemLoop, rowLoop_ok sqrt fn p (hl p (by simp)) samples hs,
      ih (fun a ha => hl a (List.mem_cons_of_mem _ ha))]
    rfl

theorem map_fst_zip_map {α β γ : Type} (f : α → γ) (l : List α) (l2 : List β)
    (h : l.length ≤ l2.length) :
    (l.zip l2).map (fun pc => f pc.1) = l.map f := by
  have hc : (fun pc : α × β => f pc.1) = f ∘ Prod.fst := rfl
  rw [hc, ← List.map_map, List.map_fst_zip l l2 h]

/-- Closed form of RBFNetwork::eval on a well-formed model and a
correct-dimension input. -/
theorem eval_formula (m : RBFNetwork) (hwf : m.WellFormed) (x : List ℚ)
    (hx : x.length = m.numVariables) :
    RBFNetwork.eval sqrt m x =
      .ok (if m.normalized then
          ((m.samples.zip m.coefficients).map
              (fun pc => pc.2 * m.fn.eval (distF sqrt x pc.1.x))).sum /
            (m.samples.map (fun p => m.fn.eval (distF sqrt x p.x))).sum
        else
          ((m.samples.zip m.coefficients).map
            (fun pc => pc.2 * m.fn.eval (distF sqrt x pc.1.x))).sum) := by
  have hpcs : ∀ pc ∈ m.samples.zip m.coefficients, pc.1.x.length = x.length := by
    intro pc hpc
    rw [hwf.1 pc.1 (List.of_mem_zip hpc).1, hx]
  rw [RBFNetwork.eval, if_neg (not_not_intro hx),
    evalLoop_ok sqrt m.fn x (m.samples.zip m.coefficients) 0 0 hpcs]
  show Except.ok (if m.normalized then _ / _ else _) = _
  rw [map_fst_zip_map (fun p => m.fn.eval (distF sqrt x p.x)) m.samples m.coefficients
    (le_of_eq hwf.2.symm)]
  simp only [zero_add]

/-- Closed form of RBFNetwork::evalBasis on a well-formed model and a
correct-dimension input. -/
theorem evalBasis_formula (m : RBFNetwork) (hwf : m.WellFormed) (x : List ℚ)
    (hx : x.length = m.numVariables) :
    RBFNetwork.evalBasis sqrt m x =
      .ok (if m.normalized then
          (m.samples.map (fun p => m.fn.eval (distF sqrt x p.x))).map
            (fun v => v / (m.samples.map (fun p => m.fn.eval (distF sqrt x p.x))).sum)
        else m.samples.map (fun p => m.fn.eval (distF sqrt x p.x))) := by
  have hsam : ∀ p ∈ m.samples, p.x.length = x.length := by
    intro p hp; rw [hwf.1 p hp, hx]
  rw [RBFNetwork.evalBasis, if_neg (not_not_intro hx), basisLoop_ok sqrt m.fn x m.samples hsam]

/-- Claim C1: for every well-formed trained model (at least one sample, at
least one input variable) and every query vector x: when the length of x
differs from numVariables, both eval and evalJacobian throw a
DimensionMismatch error — eval from its explicit check, evalJacobian
from the length guard inside RBFNetwork::dist reached by its inner loop
— and when the length matches, neither throws.  The embedding is purely
functional, so the throwing paths trivially have no other effect. -/
theorem C1_dimension_mismatch (m : RBFNetwork) (hwf : m.WellFormed)
    (hn : m.samples ≠ []) (hd : 1 ≤ m.numVariables) (x : List ℚ) :
    (x.length ≠ m.numVariables →
      isDimensionMismatch (RBFNetwork.eval sqrt m x) = true ∧
      isDimensionMismatch (RBFNetwork.evalJacobian sqrt m x) = true) ∧
    (x.length = m.numVariables →
      isOk (RBFNetwork.eval sqrt m x) = true ∧
      isOk (RBFNetwork.evalJacobian sqrt m x) = true) := by
  constructor
  · intro hx
    constructor
    · rw [RBFNetwork.eval, if_pos hx]
      rfl
    · obtain ⟨p, rest, hs⟩ : ∃ p rest, m.samples = p :: rest := by
        cases hsm : m.samples with
        | nil => exact absurd hsm hn
        | cons p rest => exact ⟨p, rest, rfl⟩
      obtain ⟨c, crest, hc⟩ : ∃ c crest, m.coefficients = c :: crest := by
        have h2 := hwf.2
        rw [hs] at h2
        cases hcm : m.coefficients with
        | nil => rw [hcm] at h2; simp at h2
        | cons c crest => exact ⟨c, crest, rfl⟩
      obtain ⟨k, hk⟩ : ∃ k, m.numVariables = k + 1 := ⟨m.numVariables - 1, by omega⟩
      have hpx : x.length ≠ p.x.length := by
        rw [hwf.1 p (by rw [hs]; exact List.mem_cons_self p rest)]
        exact hx
      rw [RBFNetwork.evalJacobian, hk, List.range_succ_eq_map, hs, hc,
        List.zip_cons_cons, jacColumns, jacLoop, dist_err sqrt hpx]
      rfl
  · intro hx
    have hpcs : ∀ pc ∈ m.samples.zip m.coefficients, pc.1.x.length = x.length := by
      intro pc hpc
      rw [hwf.1 pc.1 (List.of_mem_zip hpc).1, hx]
    constructor
    · rw [eval_formula sqrt m hwf x hx]
      rfl
    · rw [RBFNetwork.evalJacobian,
        jacColumns_ok sqrt m.fn x (m.samples.zip m.coefficients) m.normalized hpcs
          (List.range m.numVariables)
          (fun i hi => by rw [hx]; exact List.mem_range.mp hi)]
      rfl

/-- Claim C3: on a correct-dimension input, eval returns sumw / sum when the
model is normalized and sumw otherwise, where sumw is the
coefficient-weighted sum of kernel values over all training samples and
sum the unweighted one. -/
theorem C3_eval_formula (m : RBFNetwork) (hwf : m.WellFormed) (x : List ℚ)
    (hx : x.length = m.numVariables) :
    RBFNetwork.eval sqrt m x =
      .ok (if m.normalized then
          ((m.samples.zip m.coefficients).map
              (fun pc => pc.2 * m.fn.eval (distF sqrt x pc.1.x))).sum /
            (m.samples.map (fun p => m.fn.eval (distF sqrt x p.x))).sum
        else
          ((m.samples.zip m.coefficients).map
            (fun pc => pc.2 * m.fn.eval (distF sqrt x pc.1.x))).sum) :=
  eval_formula sqrt m hwf x hx

theorem getD_map_lt {α β : Type} (f : α → β) (l : List α) (i : ℕ) (h : i < l.length)
    (d : α) (d2 : β) : (l.map f).getD i d2 = f (l.getD i d) := by
  rw [List.getD_eq_getElem?_getD, List.getElem?_map, List.getElem?_eq_getElem h,
    List.getD_eq_getElem l d h]
  rfl

/-- Claim C4: on a correct-dimension input, every Jacobian entry is the
chain-rule expression: each sample contributes the kernel derivative
times the directional factor ri / r, a sample at distance r = 0 from the
query contributes zero to the directional sums, and in the normalized
case the entry is the quotient-rule expression
(sum · sumw_d − sum_d · sumw) / sum². -/
theorem C4_evalJacobian_entries (m : RBFNetwork) (hwf : m.WellFormed) (x : List ℚ)
    (hx : x.length = m.numVariables) (i : ℕ) (hi : i < m.numVariables) :
    ∃ jac, RBFNetwork.evalJacobian sqrt m x = .ok jac ∧
      jac.length = m.numVariables ∧
      jac.getD i 0 =
        (let pcs := m.samples.zip m.coefficients
         let sum := (pcs.map (fun pc => m.fn.eval (distF sqrt x pc.1.x))).sum
         let sumw := (pcs.map (fun pc => pc.2 * m.fn.eval (distF sqrt x pc.1.x))).sum
         let sum_d := (pcs.map (fun pc =>
           if distF sqrt x pc.1.x = 0 then 0
           else m.fn.evalDerivative (distF sqrt x pc.1.x) *
             (x.getD i 0 - pc.1.x.getD i 0) / distF sqrt x pc.1.x)).sum
         let sumw_d := (pcs.map (fun pc =>
           if distF sqrt x pc.1.x = 0 then 0
           else pc.2 * m.fn.evalDerivative (distF sqrt x pc.1.x) *
             (x.getD i 0 - pc.1.x.getD i 0) / distF sqrt x pc.1.x)).sum
         if m.normalized then (sum * sumw_d - sum_d * sumw) / (sum * sum) else sumw_d) := by
  have hpcs : ∀ pc ∈ m.samples.zip m.coefficients, pc.1.x.length = x.length := by
    intro pc hpc
    rw [hwf.1 pc.1 (List.of_mem_zip hpc).1, hx]
  have hrange : ∀ j ∈ List.range m.numVariables, j < x.length := by
    intro j hj
    rw [hx]
    exact List.mem_range.mp hj
  have hilen : i < (List.range m.numVariables).length := by simpa using hi
  refine ⟨(List.range m.numVariables).map
      (jacEntryF sqrt m.fn x (m.samples.zip m.coefficients) m.normalized), ?_, ?_, ?_⟩
  · rw [RBFNetwork.evalJacobian,
      jacColumns_ok sqrt m.fn x (m.samples.zip m.coefficients) m.normalized hpcs
        (List.range m.numVariables) hrange]
  · simp
  · rw [getD_map_lt (jacEntryF sqrt m.fn x (m.samples.zip m.coefficients) m.normalized)
      (List.range m.numVariables) i hilen 0 0,
      List.getD_eq_getElem (List.range m.numVariables) 0 hilen, List.getElem_range]
    rfl

theorem sum_map_div (l : List ℚ) (c : ℚ) :
    (l.map (fun v => v / c)).sum = l.sum / c := by
  induction l with
  | nil => simp
  | cons a t ih => simp [ih, add_div]

/-- Claim C6: for a normalized well-formed model and a correct-dimension input
whose total kernel activation is nonzero, the entries of evalBasis sum
to 1. -/
theorem C6_evalBasis_sum_one (m : RBFNetwork) (hwf : m.WellFormed) (x : List ℚ)
    (hx : x.length = m.numVariables) (hnorm : m.normalized = true)
    (hS : (m.samples.map (fun p => m.fn.eval (distF sqrt x p.x))).sum ≠ 0) :
    ∃ basis, RBFNetwork.evalBasis sqrt m x = .ok basis ∧ basis.sum = 1 := by
  refine ⟨_, evalBasis_formula sqrt m hwf x hx, ?_⟩
  rw [if_pos hnorm, sum_map_div, div_self hS]

theorem dot_map_eq_sumw (φ : DataPoint → ℚ) :
    ∀ (samples : List DataPoint) (coeffs : List ℚ),
      dot coeffs (samples.map φ) =
        ((samples.zip coeffs).map (fun pc => pc.2 * φ pc.1)).sum := by
  intro samples
  induction samples with
  | nil => intro coeffs; cases coeffs <;> simp [dot]
  | cons p rest ih =>
    intro coeffs
    cases coeffs with
    | nil => simp [dot]
    | cons c cr =>
      have h1 : dot (c :: cr) ((p :: rest).map φ) = c * φ p + dot cr (rest.map φ) := by
        simp [dot]
      rw [h1, ih cr, List.zip_cons_cons, List.map_cons, List.sum_cons]

theorem dot_map_div (u : List ℚ) : ∀ (v : List ℚ) (c : ℚ),
    dot u (v.map (fun t => t / c)) = dot u v / c := by
  induction u with
  | nil => intro v c; simp [dot]
  | cons a u ih =>
    intro v c
    cases v with
    | nil => simp [dot]
    | cons b v =>
      have h1 : dot (a :: u) ((b :: v).map (fun t => t / c)) =
          a * (b / c) + dot u (v.map (fun t => t / c)) := by
        simp [dot]
      have h2 : dot (a :: u) (b :: v) = a * b + dot u v := by
        simp [dot]
      rw [h1, h2, ih v c, add_div, mul_div_assoc]

/-- Claim C7: the dot product of the weight vector with evalBasis(x) equals
eval(x), for a well-formed model and a correct-dimension input (with
nonzero activation sum in the normalized case). -/
theorem C7_basis_dot_eval (m : RBFNetwork) (hwf : m.WellFormed) (x : List ℚ)
    (hx : x.length = m.numVariables)
    (hS : m.normalized = true →
      (m.samples.map (fun p => m.fn.eval (distF sqrt x p.x))).sum ≠ 0) :
    ∃ v basis, RBFNetwork.eval sqrt m x = .ok v ∧
      RBFNetwork.evalBasis sqrt m x = .ok basis ∧
      dot m.coefficients basis = v := by
  refine ⟨_, _, eval_formula sqrt m hwf x hx, evalBasis_formula sqrt m hwf x hx, ?_⟩
  cases hnb : m.normalized with
  | false =>
    rw [if_neg Bool.false_ne_true, if_neg Bool.false_ne_true]
    exact dot_map_eq_sumw (fun p => m.fn.eval (distF sqrt x p.x)) m.samples m.coefficients
  | true =>
    rw [if_pos rfl, if_pos rfl,
      dot_map_div m.coefficients (m.samples.map (fun p => m.fn.eval (distF sqrt x p.x)))
        ((m.samples.map (fun p => m.fn.eval (distF sqrt x p.x))).sum),
      dot_map_eq_sumw (fun p => m.fn.eval (distF sqrt x p.x)) m.samples m.coefficients]

/-- Claim C2: the assembled linear system has A[i][j] = kernel(distance(xᵢ, xⱼ))
for every ordered pair (i, j), and b[i] equals the row sum of A times yᵢ
when normalized and yᵢ otherwise — even though the implementation skips
writing and accumulating kernel values equal to zero, this changes
neither A (which was zero-initialized) nor the row sums. -/
theorem C2_linear_system (fn : RBF) (samples : List DataPoint) (normalized : Bool) {d : ℕ}
    (hdim : ∀ q ∈ samples, q.x.length = d) :
    ∃ A b, systemLoop sqrt fn normalized samples samples = .ok (A, b) ∧
      A.length = samples.length ∧ b.length = samples.length ∧
      (∀ i j, i < samples.length → j < samples.length →
        (A.getD i []).getD j 0 =
          fn.eval (distF sqrt (samples.getD i ⟨[], 0⟩).x (samples.getD j ⟨[], 0⟩).x)) ∧
      (∀ i, i < samples.length →
        b.getD i 0 =
          if normalized then (A.getD i []).sum * (samples.getD i ⟨[], 0⟩).y
          else (samples.getD i ⟨[], 0⟩).y) := by
  refine ⟨samples.map (fun p => samples.map (fun q => fn.eval (distF sqrt p.x q.x))),
    samples.map (fun p =>
      if normalized then (samples.map (fun q => fn.eval (distF sqrt p.x q.x))).sum * p.y
      else p.y),
    systemLoop_ok sqrt fn normalized samples hdim samples hdim, by simp, by simp, ?_, ?_⟩
  · intro i j hi hj
    rw [getD_map_lt (fun p => samples.map (fun q => fn.eval (distF sqrt p.x q.x)))
        samples i hi ⟨[], 0⟩ [],
      getD_map_lt (fun q => fn.eval (distF sqrt (samples.getD i ⟨[], 0⟩).x q.x))
        samples j hj ⟨[], 0⟩ 0]
  · intro i hi
    rw [getD_map_lt (fun p =>
        if normalized then (samples.map (fun q => fn.eval (distF sqrt p.x q.x))).sum * p.y
        else p.y) samples i hi ⟨[], 0⟩ 0,
      getD_map_lt (fun p => samples.map (fun q => fn.eval (distF sqrt p.x q.x)))
        samples i hi ⟨[], 0⟩ []]

/-- Claim C8: for every sample table with at least one sample and every kernel,
the assembled training matrix is symmetric, because the Euclidean
distance is symmetric in its two arguments. -/
theorem C8_matrix_symmetric (fn : RBF) (samples : List DataPoint) (normalized : Bool) {d : ℕ}
    (hn : 1 ≤ samples.length) (hdim : ∀ q ∈ samples, q.x.length = d) :
    ∃ A b, systemLoop sqrt fn normalized samples samples = .ok (A, b) ∧
      ∀ i j, i < samples.length → j < samples.length →
        (A.getD i []).getD j 0 = (A.getD j []).getD i 0 := by
  refine ⟨samples.map (fun p => samples.map (fun q => fn.eval (distF sqrt p.x q.x))),
    samples.map (fun p =>
      if normalized then (samples.map (fun q => fn.eval (distF sqrt p.x q.x))).sum * p.y
      else p.y),
    systemLoop_ok sqrt fn normalized samples hdim samples hdim, ?_⟩
  intro i j hi hj
  rw [getD_map_lt (fun p => samples.map (fun q => fn.eval (distF sqrt p.x q.x)))
      samples i hi ⟨[], 0⟩ [],
    getD_map_lt (fun q => fn.eval (distF sqrt (samples.getD i ⟨[], 0⟩).x q.x))
      samples j hj ⟨[], 0⟩ 0,
    getD_map_lt (fun p => samples.map (fun q => fn.eval (distF sqrt p.x q.x)))
      samples j hj ⟨[], 0⟩ [],
    getD_map_lt (fun q => fn.eval (distF sqrt (samples.getD j ⟨[], 0⟩).x q.x))
      samples i hi ⟨[], 0⟩ 0]
  unfold distF
  rw [sumSqDiff_comm]

/-- Claim C9: the reciprocal condition number diagnostic is 0 when the largest
or smallest singular value is ≤ 0 and svalmin / svalmax otherwise, and
training completes with this diagnostic for every possible outcome of
the singular value decomposition — in particular it never aborts because
the diagnostic is low. -/
theorem C9_rcond_diagnostic (fn : RBF) (samples : List DataPoint) (normalized : Bool)
    (svdSingularValues : List (List ℚ) → List ℚ)
    (svdSolve : List (List ℚ) → List ℚ → List ℚ) {d : ℕ}
    (hdim : ∀ q ∈ samples, q.x.length = d) :
    ∃ A b, systemLoop sqrt fn normalized samples samples = .ok (A, b) ∧
      RBFNetwork.construct sqrt fn samples normalized svdSingularValues svdSolve =
        .ok ⟨A, b, svdSolve A b,
          if (svdSingularValues A).headD 0 ≤ 0 ∨ ((svdSingularValues A).getLast?).getD 0 ≤ 0
          then 0
          else ((svdSingularValues A).getLast?).getD 0 / (svdSingularValues A).headD 0⟩ := by
  refine ⟨samples.map (fun p => samples.map (fun q => fn.eval (distF sqrt p.x q.x))),
    samples.map (fun p =>
      if normalized then (samples.map (fun q => fn.eval (distF sqrt p.x q.x))).sum * p.y
      else p.y), systemLoop_ok sqrt fn normalized samples hdim samples hdim, ?_⟩
  rw [RBFNetwork.construct, systemLoop_ok sqrt fn normalized samples hdim samples hdim]
  rfl

/-- Claim C10: an RBFType argument equal to none of the five recognized codes
selects the ThinPlateSpline kernel, and the constructor does not fail on
it: it trains exactly as it would with RBFType::THIN_PLATE_SPLINE. -/
theorem C10_unknown_type_fallback (g mq iq imq tps : RBF) (t : Int)
    (h1 : t ≠ GAUSSIAN) (h2 : t ≠ MULTIQUADRIC) (h3 : t ≠ INVERSE_QUADRIC)
    (h4 : t ≠ INVERSE_MULTIQUADRIC) (h5 : t ≠ THIN_PLATE_SPLINE)
    (samples : List DataPoint) (normalized : Bool)
    (svdSingularValues : List (List ℚ) → List ℚ)
    (svdSolve : List (List ℚ) → List ℚ → List ℚ) {d : ℕ}
    (hdim : ∀ q ∈ samples, q.x.length = d) :
    selectRBF g mq iq imq tps t = tps ∧
    constructFromType sqrt g mq iq imq tps t samples normalized
        svdSingularValues svdSolve =
      constructFromType sqrt g mq iq imq tps THIN_PLATE_SPLINE samples normalized
        svdSingularValues svdSolve ∧
    isOk (constructFromType sqrt g mq iq imq tps t samples normalized
      svdSingularValues svdSolve) = true := by
  have hsel : selectRBF g mq iq imq tps t = tps := by
    rw [selectRBF, if_neg h5, if_neg h2, if_neg h3, if_neg h4, if_neg h1]
  have hsel2 : selectRBF g mq iq imq tps THIN_PLATE_SPLINE = tps := by
    rw [selectRBF, if_pos rfl]
  refine ⟨hsel, ?_, ?_⟩
  · rw [constructFromType, constructFromType, hsel, hsel2]
  · rw [constructFromType, hsel, RBFNetwork.construct,
      systemLoop_ok sqrt tps normalized samples hdim samples hdim]
    rfl

theorem length_encodeWord : ∀ (w v : ℕ), (encodeWord w v).length = w := by
  intro w
  induction w with
  | zero => intro v; rfl
  | succ w ih => intro v; simp [encodeWord, ih]

theorem decode_encodeWord : ∀ (w v : ℕ) (rest : List ℕ),
    decodeWord w (encodeWord w v ++ rest) = some (v % 256 ^ w, rest) := by
  intro w
  induction w with
  | zero => intro v rest; simp [encodeWord, decodeWord, Nat.mod_one]
  | succ w ih =>
    intro v rest
    rw [encodeWord, List.cons_append, decodeWord, ih (v / 256) rest]
    show some (v % 256 + 256 * (v / 256 % 256 ^ w), rest) = some (v % 256 ^ (w + 1), rest)
    rw [pow_succ', Nat.mod_mul]

theorem readWords_encode : ∀ (es rest : List ℕ), (∀ e ∈ es, e < 256 ^ bytesPerDouble) →
    readWords es.length ((es.map (encodeWord bytesPerDouble)).flatten ++ rest) =
      some (es, rest) := by
  intro es
  induction es with
  | nil => intro rest _; rfl
  | cons e t ih =>
    intro rest h
    rw [List.map_cons, List.flatten_cons, List.append_assoc, List.length_cons, readWords,
      decode_encodeWord bytesPerDouble e ((t.map (encodeWord bytesPerDouble)).flatten ++ rest),
      Nat.mod_eq_of_lt (h e (List.mem_cons_self e t))]
    show (match readWords t.length ((t.map (encodeWord bytesPerDouble)).flatten ++ rest) with
      | none => none
      | some (vs, s2) => some (e :: vs, s2)) = some (e :: t, rest)
    rw [ih rest (fun a ha => h a (List.mem_cons_of_mem _ ha))]

theorem length_flatten_encode (es : List ℕ) :
    ((es.map (encodeWord bytesPerDouble)).flatten).length = es.length * bytesPerDouble := by
  induction es with
  | nil => rfl
  | cons e t ih =>
    rw [List.map_cons, List.flatten_cons, List.length_append, length_encodeWord, ih,
      List.length_cons]
    ring

/-- Claim C5: serializing a dense matrix and deserializing the resulting byte
stream reproduces the matrix exactly — same dimensions, every element
bitwise equal, with nothing left over — and the stream length is
2·sizeof(size) + rows·cols·sizeof(double), which also agrees with
get_size.  The hypotheses state that the dimensions and the element bit
patterns fit in their 64-bit machine words and that the matrix is
well-formed (rows·cols stored elements). -/
theorem C5_denseMatrix_roundtrip (m : DenseMatrix)
    (hr : m.rows < 256 ^ bytesPerIndex) (hc : m.cols < 256 ^ bytesPerIndex)
    (he : ∀ e ∈ m.entries, e < 256 ^ bytesPerDouble)
    (hlen : m.entries.length = m.rows * m.cols) :
    deserializeDenseMatrix (serializeDenseMatrix m) = some (m, []) ∧
    (serializeDenseMatrix m).length =
      2 * bytesPerIndex + m.rows * m.cols * bytesPerDouble ∧
    (serializeDenseMatrix m).length = get_size m := by
  have hflat : ((m.entries.map (encodeWord bytesPerDouble)).flatten).length =
      m.rows * m.cols * bytesPerDouble := by
    rw [length_flatten_encode, hlen]
  have hser : (serializeDenseMatrix m).length =
      2 * bytesPerIndex + m.rows * m.cols * bytesPerDouble := by
    rw [serializeDenseMatrix, List.length_append, List.length_append, length_encodeWord,
      length_encodeWord, hflat]
    ring
  refine ⟨?_, hser, ?_⟩
  · have hread : readWords (m.rows * m.cols)
        ((m.entries.map (encodeWord bytesPerDouble)).flatten ++ []) = some (m.entries, []) := by
      rw [← hlen]
      exact readWords_encode m.entries [] he
    rw [List.append_nil] at hread
    simp only [serializeDenseMatrix, deserializeDenseMatrix, List.append_assoc,
      decode_encodeWord, Nat.mod_eq_of_lt hr, Nat.mod_eq_of_lt hc, hread]
  · rw [hser, get_size]
    rcases Nat.eq_zero_or_pos (m.rows * m.cols) with h0 | h0
    · rw [h0, if_neg (by omega)]
      ring
    · rw [if_pos h0]
      ring

/-- Witness for C1 at a concrete one-sample model and the
wrong-dimension query [1, 2]. -/
theorem C1_witness :
    ((([1, 2] : List ℚ).length ≠ modelW.numVariables →
      isDimensionMismatch (RBFNetwork.eval id modelW [1, 2]) = true ∧
      isDimensionMismatch (RBFNetwork.evalJacobian id modelW [1, 2]) = true) ∧
     (([1, 2] : List ℚ).length = modelW.numVariables →
      isOk (RBFNetwork.eval id modelW [1, 2]) = true ∧
      isOk (RBFNetwork.evalJacobian id modelW [1, 2]) = true)) :=
  C1_dimension_mismatch id modelW (by unfold RBFNetwork.WellFormed; decide) (by decide)
    (by decide) [1, 2]

/-- Witness for C2 at a concrete normalized two-sample table. -/
theorem C2_witness :
    ∃ A b, systemLoop id rbfW true tableW tableW = .ok (A, b) ∧
      A.length = tableW.length ∧ b.length = tableW.length ∧
      (∀ i j, i < tableW.length → j < tableW.length →
        (A.getD i []).getD j 0 =
          rbfW.eval (distF id (tableW.getD i ⟨[], 0⟩).x (tableW.getD j ⟨[], 0⟩).x)) ∧
      (∀ i, i < tableW.length →
        b.getD i 0 =
          if true then (A.getD i []).sum * (tableW.getD i ⟨[], 0⟩).y
          else (tableW.getD i ⟨[], 0⟩).y) :=
  @C2_linear_system id rbfW tableW true 1 (by decide)

/-- Witness for C3 at a concrete model and query. -/
theorem C3_witness :
    RBFNetwork.eval id modelW [3] =
      .ok (if modelW.normalized then
          ((modelW.samples.zip modelW.coefficients).map
              (fun pc => pc.2 * modelW.fn.eval (distF id [3] pc.1.x))).sum /
            (modelW.samples.map (fun p => modelW.fn.eval (distF id [3] p.x))).sum
        else
          ((modelW.samples.zip modelW.coefficients).map
            (fun pc => pc.2 * modelW.fn.eval (distF id [3] pc.1.x))).sum) :=
  C3_eval_formula id modelW (by unfold RBFNetwork.WellFormed; decide) [3] (by decide)

/-- Witness for C4 at a concrete model, query and input dimension. -/
theorem C4_witness :
    ∃ jac, RBFNetwork.evalJacobian id modelW [3] = .ok jac ∧
      jac.length = modelW.numVariables ∧
      jac.getD 0 0 =
        (let pcs := modelW.samples.zip modelW.coefficients
         let sum := (pcs.map (fun pc => modelW.fn.eval (distF id [3] pc.1.x))).sum
         let sumw := (pcs.map (fun pc => pc.2 * modelW.fn.eval (distF id [3] pc.1.x))).sum
         let sum_d := (pcs.map (fun pc =>
           if distF id [3] pc.1.x = 0 then 0
           else modelW.fn.evalDerivative (distF id [3] pc.1.x) *
             (([3] : List ℚ).getD 0 0 - pc.1.x.getD 0 0) / distF id [3] pc.1.x)).sum
         let sumw_d := (pcs.map (fun pc =>
           if distF id [3] pc.1.x = 0 then 0
           else pc.2 * modelW.fn.evalDerivative (distF id [3] pc.1.x) *
             (([3] : List ℚ).getD 0 0 - pc.1.x.getD 0 0) / distF id [3] pc.1.x)).sum
         if modelW.normalized then (sum * sumw_d - sum_d * sumw) / (sum * sum) else sumw_d) :=
  C4_evalJacobian_entries id modelW (by unfold RBFNetwork.WellFormed; decide) [3] (by decide)
    0 (by decide)

/-- Witness for C5 at a concrete 5 × 3 matrix. -/
theorem C5_witness :
    deserializeDenseMatrix (serializeDenseMatrix matrixW) = some (matrixW, []) ∧
    (serializeDenseMatrix matrixW).length =
      2 * bytesPerIndex + matrixW.rows * matrixW.cols * bytesPerDouble ∧
    (serializeDenseMatrix matrixW).length = get_size matrixW :=
  C5_denseMatrix_roundtrip matrixW (by decide) (by decide) (by decide) (by decide)

/-- Witness for C6 at a concrete normalized model and query. -/
theorem C6_witness :
    ∃ basis, RBFNetwork.evalBasis id modelN [0] = .ok basis ∧ basis.sum = 1 :=
  C6_evalBasis_sum_one id modelN (by unfold RBFNetwork.WellFormed; decide) [0] (by decide)
    (by decide) (by norm_num [modelN, rbfW, distF, sumSqDiff])

/-- Witness for C7 at a concrete normalized model and query. -/
theorem C7_witness :
    ∃ v basis, RBFNetwork.eval id modelN [0] = .ok v ∧
      RBFNetwork.evalBasis id modelN [0] = .ok basis ∧
      dot modelN.coefficients basis = v :=
  C7_basis_dot_eval id modelN (by unfold RBFNetwork.WellFormed; decide) [0] (by decide)
    (fun _ => by norm_num [modelN, rbfW, distF, sumSqDiff])

/-- Witness for C8 at a concrete two-sample table. -/
theorem C8_witness :
    ∃ A b, systemLoop id rbfW false tableW tableW = .ok (A, b) ∧
      ∀ i j, i < tableW.length → j < tableW.length →
        (A.getD i []).getD j 0 = (A.getD j []).getD i 0 :=
  @C8_matrix_symmetric id rbfW tableW false 1 (by decide) (by decide)

/-- Witness for C9 at a concrete table and concrete SVD outcome. -/
theorem C9_witness :
    ∃ A b, systemLoop id rbfW false tableW tableW = .ok (A, b) ∧
      RBFNetwork.construct id rbfW tableW false (fun _ => ([] : List ℚ)) (fun _ w => w) =
        .ok ⟨A, b, b,
          if ([] : List ℚ).headD 0 ≤ 0 ∨ (([] : List ℚ).getLast?).getD 0 ≤ 0 then 0
          else (([] : List ℚ).getLast?).getD 0 / ([] : List ℚ).headD 0⟩ :=
  @C9_rcond_diagnostic id rbfW tableW false (fun _ => []) (fun _ w => w) 1 (by decide)

/-- Witness for C10 at the unrecognized kernel-type code 99. -/
theorem C10_witness :
    selectRBF rbfW rbfW rbfW rbfW rbfW 99 = rbfW ∧
    constructFromType id rbfW rbfW rbfW rbfW rbfW 99 tableW false
        (fun _ => ([] : List ℚ)) (fun _ w => w) =
      constructFromType id rbfW rbfW rbfW rbfW rbfW THIN_PLATE_SPLINE tableW false
        (fun _ => ([] : List ℚ)) (fun _ w => w) ∧
    isOk (constructFromType id rbfW rbfW rbfW rbfW rbfW 99 tableW false
      (fun _ => ([] : List ℚ)) (fun _ w => w)) = true :=
  @C10_unknown_type_fallback id rbfW rbfW rbfW rbfW rbfW 99 (by decide) (by decide)
    (by decide) (by decide) (by decide) tableW false (fun _ => []) (fun _ w => w) 1 (by decide)

end SPLINTER
